import Mathlib

/-!
Verification of the image-captioning / prompt-consolidation scripts of the
`From_Thought_to_Prompt` repository, against their natural-language
specification.  The Python scripts are shallowly embedded: each batch loop
becomes a fold over a list of abstract work items carrying the outcomes of the
external effects (file reads, image decoding, HTTP fetches, API calls), and
each script's output CSV becomes the list of records the fold accumulates.
-/

/-! ## Shared string / number helpers -/

/-- Value of a list of decimal digit characters, most significant first
(the semantics of `int(...)` applied to a digit string). -/
def digitsToNat (cs : List Char) : Nat :=
  cs.foldl (fun acc c => 10 * acc + (c.toNat - 48)) 0

/-- First maximal run of decimal digits in a character list, if any
(the semantics of `re.search` with pattern `(\d+)`, as used by
`pandas.Series.str.extract(r"(\d+)")`). -/
def firstDigitRunAux : List Char → Option (List Char)
  | [] => none
  | c :: rest =>
    if c.isDigit then some (List.takeWhile Char.isDigit (c :: rest))
    else firstDigitRunAux rest

/-- Numeric value of the first maximal digit run in a string, if the string
contains a digit. -/
def firstDigitRun (s : String) : Option Nat :=
  (firstDigitRunAux s.toList).map digitsToNat

/-- `s.endswith(suffix)` of Python, over the underlying character lists. -/
def pyEndsWith (s suffix : String) : Bool :=
  suffix.toList.isSuffixOf s.toList

/-- Whitespace stripping from both ends of a character list. -/
def trimCharList (cs : List Char) : List Char :=
  ((cs.dropWhile Char.isWhitespace).reverse.dropWhile Char.isWhitespace).reverse

/-- `s.strip()` of Python. -/
def pyTrim (s : String) : String :=
  String.mk (trimCharList s.toList)

/-- Lexicographic code-point comparison of character lists, the order Python
uses to compare strings (and `sorted` uses to sort names). -/
def charListLt : List Char → List Char → Bool
  | [], [] => false
  | [], _ :: _ => true
  | _ :: _, [] => false
  | a :: as, b :: bs =>
    if a.toNat < b.toNat then true
    else if b.toNat < a.toNat then false
    else charListLt as bs

/-- Non-strict Python string order. -/
def pyStrLe (a b : String) : Prop := charListLt b.toList a.toList = false

instance : DecidableRel pyStrLe := fun a b => by
  unfold pyStrLe; infer_instance

/-- Stem of a filename, following `os.path.splitext`: split at the last dot,
except that a name consisting only of leading dots before that dot (e.g.
`".txt"`) is not split. -/
def splitextStem (p : String) : String :=
  let cs := p.toList
  match cs.reverse.findIdx? (fun c => c = '.') with
  | none => p
  | some rj =>
    let i := cs.length - 1 - rj
    if (cs.take i).all (fun c => c = '.') then p else String.mk (cs.take i)

/-- Semantics of Python `int(s)` on a string: optional surrounding whitespace,
optional sign, then a nonempty digit run; `none` models the raised
`ValueError`. -/
def pyInt (s : String) : Option Int :=
  match trimCharList s.toList with
  | [] => none
  | '-' :: rest =>
    if rest ≠ [] ∧ rest.all Char.isDigit then some (-(digitsToNat rest : Int)) else none
  | '+' :: rest =>
    if rest ≠ [] ∧ rest.all Char.isDigit then some (digitsToNat rest : Int) else none
  | cs =>
    if cs.all Char.isDigit then some (digitsToNat cs : Int) else none

/-! ## Prompt consolidator
(`consolidate_original_prompts_for_enhancement.py`)

An input file is a pair of its name and `some` trimmed-able content, or `none`
when reading it raises (the script logs and skips such files). -/

/-- Ordering used for `sorted(os.listdir(...))`: lexicographic on names. -/
def fileNameLe (a b : String × Option String) : Prop := pyStrLe a.1 b.1

instance : DecidableRel fileNameLe := fun a b => by
  unfold fileNameLe; infer_instance

/-- The `data` list built by STEP 2 of the consolidator: for each `.txt` file
(in sorted name order) that reads successfully, the pair of its stem
(`os.path.splitext(fname)[0]`) and its stripped content. -/
def textData (files : List (String × Option String)) : List (String × String) :=
  ((List.insertionSort fileNameLe
    (files.filter (fun fc => pyEndsWith fc.1 ".txt"))).filterMap
    (fun fc => fc.2.map (fun txt => (splitextStem fc.1, pyTrim txt))))

/-- Ascending order on (id, prompt) rows, for `df.sort_values(by="id")`. -/
def idRowLe (a b : Nat × String) : Prop := a.1 ≤ b.1

instance : DecidableRel idRowLe := fun a b => by
  unfold idRowLe; infer_instance

instance : IsTotal (Nat × String) idRowLe := ⟨fun a b => Nat.le_total a.1 b.1⟩

instance : IsTrans (Nat × String) idRowLe := ⟨fun _ _ _ h1 h2 => Nat.le_trans h1 h2⟩

/-- The consolidator's STEP 2 as a whole: build `data`, extract the first digit
run of each id string, convert to int, sort ascending by id.  `none` models a
crash: `df["id"]` raises `KeyError` on an empty frame, and
`.astype(int)` raises on the `NaN` produced when a stem has no digit. -/
def consolidate (files : List (String × Option String)) : Option (List (Nat × String)) :=
  let data := textData files
  if data.isEmpty then none
  else if data.all (fun r => (firstDigitRun r.1).isSome) then
    some (List.insertionSort idRowLe
      (data.map (fun r => ((firstDigitRun r.1).getD 0, r.2))))
  else none

/-! ## Multi-model captioner (`caption_enhanced_images.py`) -/

/-- `get_caption_from_api`'s retry loop.  `outcomes.getD attempt none` is the
result of the `attempt`-th API call (`some caption`, or `none` when the call
raises).  Returns the caption (`""` when every attempt failed) together with
the list of back-off sleep durations, in seconds, performed in the `except`
arms (`delay * (attempt + 1)` with `delay = 1.5`). -/
def get_caption_go (outcomes : List (Option String)) : Nat → Nat → String × List ℚ
  | _, 0 => ("", [])
  | attempt, rem + 1 =>
    match outcomes.getD attempt none with
    | some c => (c, [])
    | none =>
      let p := get_caption_go outcomes (attempt + 1) rem
      (p.1, (3 / 2 : ℚ) * (attempt + 1) :: p.2)

/-- `get_caption_from_api(b64_image)` with the default `retries=3`,
`delay=1.5`. -/
def get_caption_from_api (outcomes : List (Option String)) : String × List ℚ :=
  get_caption_go outcomes 0 3

/-- One work item of `process_model_folder`: a `.png` filename together with
the outcomes of the external effects touching it (does the sibling `.txt`
exist; its content or `none` when reading raises; the result of
`encode_image`; the per-attempt API outcomes). -/
structure MItem where
  fname : String
  txtExists : Bool
  promptRead : Option String
  encoded : Option String
  apiOutcomes : List (Option String)
deriving DecidableEq, Repr

/-- A row of a per-model output CSV. -/
structure MRecord where
  id : Int
  prompt : String
  image_filename : String
  caption : String
deriving DecidableEq, Repr

/-- Loop state of `process_model_folder`: accumulated records, plus the
contents of each checkpoint write to the `_captions_temp.csv` file. -/
structure MState where
  records : List MRecord
  saves : List (List MRecord)
deriving DecidableEq, Repr

/-- `fname.replace(".png", "")`: remove every (non-overlapping, left-to-right)
occurrence of `".png"`. -/
def removePngAux : List Char → List Char
  | '.' :: 'p' :: 'n' :: 'g' :: rest => removePngAux rest
  | c :: rest => c :: removePngAux rest
  | [] => []

/-- `fname.replace(".png", "")` on a string. -/
def removePng (s : String) : String :=
  String.mk (removePngAux s.toList)

/-- An item is captioned (not skipped) when the `.txt` exists, reads, the
image encodes, and the API returns a nonempty caption. -/
def MItem.captures (it : MItem) : Prop :=
  it.txtExists = true ∧ it.promptRead.isSome ∧ it.encoded.isSome ∧
    (get_caption_from_api it.apiOutcomes).1 ≠ ""

/-- One iteration of the `process_model_folder` loop, at 1-based index
`p.1` over item `p.2`, with `total` the number of listed `.png` files.
Skipped items fall through every branch including the checkpoint write;
`none` models the uncaught `ValueError` of `int(img_id)` on a non-numeric
stem. -/
def mStep (total : Nat) (s : MState) (p : Nat × MItem) : Option MState :=
  if p.2.txtExists = false then some s
  else match p.2.promptRead with
  | none => some s
  | some prompt =>
    match p.2.encoded with
    | none => some s
    | some _ =>
      let caption := (get_caption_from_api p.2.apiOutcomes).1
      if caption = "" then some s
      else match pyInt (removePng p.2.fname) with
        | none => none
        | some n =>
          let recs := s.records ++ [⟨n, prompt, p.2.fname, caption⟩]
          some ⟨recs, if p.1 % 50 = 0 ∨ p.1 = total then s.saves ++ [recs] else s.saves⟩

/-- Name order for `sorted([f for f in os.listdir(...) if f.endswith(".png")])`. -/
def mItemLe (a b : MItem) : Prop := pyStrLe a.fname b.fname

instance : DecidableRel mItemLe := fun a b => by
  unfold mItemLe; infer_instance

/-- `process_model_folder`: keep the `.png` files, sort by name, truncate to
`num_samples = 200`, then run the captioning loop with 1-based indices. -/
def process_model_folder (items : List MItem) : Option MState :=
  let png := (List.insertionSort mItemLe
    (items.filter (fun it => pyEndsWith it.fname ".png"))).take 200
  (List.enumFrom 1 png).foldlM (mStep png.length) ⟨[], []⟩

/-- Ascending id order on captioner records, for `sort_values(by="id")`. -/
def mRecLe (a b : MRecord) : Prop := a.id ≤ b.id

instance : DecidableRel mRecLe := fun a b => by
  unfold mRecLe; infer_instance

instance : IsTotal MRecord mRecLe := ⟨fun a b => le_total a.id b.id⟩

instance : IsTrans MRecord mRecLe := ⟨fun _ _ _ h1 h2 => le_trans h1 h2⟩

/-- The final `<model>_captions_sorted.csv` content: the folder's records
sorted ascending by id (STEP 3 of the script). -/
def model_final (items : List MItem) : Option (List MRecord) :=
  (process_model_folder items).map (fun s => List.insertionSort mRecLe s.records)

/-! ## Image validation and encoding (shared STEP 2 of both pre-enhancement
scripts) -/

/-- `encode_image(image_path)`: the decode/re-encode of the image library is
out of scope, so an image file is abstracted to `some` of its (base64 PNG)
payload when it decodes and `none` when opening or converting raises; the
function catches every exception and returns `None` rather than raising. -/
def encode_image (img : Option String) : Option String :=
  match img with
  | some payload => some payload
  | none => none

/-! ## Civitai captioner (`civitai_image_captioning.py`) -/

/-- Outcome of one `client.chat.completions.create` call. -/
inductive ApiResult where
  | success (caption : String)
  | rateLimit
  | otherError
deriving DecidableEq, Repr

/-- One row of the civitai prompt DataFrame, with the outcomes of the
external effects: the decodable image payload (or `none`) and the API call's
outcome. -/
structure CivItem where
  id : String
  prompt : String
  image_filename : String
  decoded : Option String
  api : ApiResult
deriving DecidableEq, Repr

/-- A row of the captioned civitai CSV (`caption` is `None` for a failed
item). -/
structure CivRecord where
  id : String
  prompt : String
  image_filename : String
  caption : Option String
deriving DecidableEq, Repr

/-- Loop state of `generate_captions`: accumulated records, the cumulative
`fail_count`, the `bad_files` set, whether the loop `break`-ed, and the log of
`time.sleep` durations (16 after a success, 5 after a `RateLimitError`). -/
structure CivState where
  records : List CivRecord
  failCount : Nat
  badFiles : List String
  aborted : Bool
  sleeps : List Nat
deriving DecidableEq, Repr

/-- The item is recorded with a caption: image decodes and the API succeeds. -/
def CivItem.succeeds (it : CivItem) : Prop :=
  it.decoded.isSome ∧ ∃ c, it.api = ApiResult.success c

/-- The item fails: image does not decode, or the API raises a
non-rate-limit exception. -/
def CivItem.fails (it : CivItem) : Prop :=
  it.decoded = none ∨ (it.decoded.isSome ∧ it.api = ApiResult.otherError)

/-- One iteration of the `generate_captions` loop (`max_failures = 10`). -/
def civStep (s : CivState) (it : CivItem) : CivState :=
  if s.aborted then s
  else match encode_image it.decoded with
  | none =>
    let s' : CivState :=
      { s with records := s.records ++ [⟨it.id, it.prompt, it.image_filename, none⟩],
               badFiles := it.image_filename :: s.badFiles,
               failCount := s.failCount + 1 }
    if 10 ≤ s'.failCount then { s' with aborted := true } else s'
  | some _ =>
    match it.api with
    | ApiResult.success c =>
      { s with records := s.records ++ [⟨it.id, it.prompt, it.image_filename, some c⟩],
               sleeps := s.sleeps ++ [16] }
    | ApiResult.rateLimit => { s with sleeps := s.sleeps ++ [5] }
    | ApiResult.otherError =>
      let s' : CivState :=
        { s with records := s.records ++ [⟨it.id, it.prompt, it.image_filename, none⟩],
                 badFiles := it.image_filename :: s.badFiles,
                 failCount := s.failCount + 1 }
      if 10 ≤ s'.failCount then { s' with aborted := true } else s'

/-- The whole `generate_captions` loop over the prompt DataFrame's rows. -/
def civRun (items : List CivItem) : CivState :=
  items.foldl civStep ⟨[], 0, [], false, []⟩

/-- `generate_captions`' final CSV: the accumulated records with every row
whose `image_filename` is in `bad_files` filtered out. -/
def generate_captions (items : List CivItem) : List CivRecord :=
  let s := civRun items
  s.records.filter (fun r => !(s.badFiles.contains r.image_filename))

/-- The consecutive-failure streak as the specification words it: the number
of immediately preceding failed items, reset to zero by any success.  Stated
from the spec for comparison with the code's `fail_count`; `true` marks a
failed item. -/
def specConsecutiveFailStreak (outcomes : List Bool) : Nat :=
  (outcomes.reverse.takeWhile (fun b => b)).length

/-! ## Lexica dataset captioner (`hf_lexica_image_captioning.py`) -/

/-- A row of the output CSV (`caption` is `none` for a `NaN` caption cell). -/
structure HfRecord where
  id : String
  prompt : String
  image_filename : String
  caption : Option String
deriving DecidableEq, Repr

/-- One row of the DataFrame handed to `caption_images`, with the outcomes of
the external effects: does the image file exist, the decodable payload for
`encode_image`, and the API call's outcome (the script catches every
exception alike, so `rateLimit` and `otherError` land in the same arm). -/
structure HfItem where
  id : String
  prompt : String
  image_filename : String
  fileExists : Bool
  decoded : Option String
  api : ApiResult
deriving DecidableEq, Repr

/-- Loop state of `caption_images` (`max_api_failures = 10`): accumulated new
records, the consecutive `fail_count`, whether the loop `break`-ed, and the
log of filenames submitted to the captioning API. -/
structure HfCapState where
  records : List HfRecord
  failCount : Nat
  aborted : Bool
  requests : List String
deriving DecidableEq, Repr

/-- One iteration of the `caption_images` loop. -/
def hfCapStep (s : HfCapState) (it : HfItem) : HfCapState :=
  if s.aborted then s
  else if it.fileExists = false then s
  else match encode_image it.decoded with
  | none => { s with failCount := s.failCount + 1 }
  | some _ =>
    let s' : HfCapState := { s with requests := s.requests ++ [it.image_filename] }
    match it.api with
    | ApiResult.success c =>
      { s' with records := s'.records ++ [⟨it.id, it.prompt, it.image_filename, some c⟩],
                failCount := 0 }
    | _ =>
      if 10 ≤ s'.failCount + 1 then
        { s' with failCount := s'.failCount + 1, aborted := true }
      else { s' with failCount := s'.failCount + 1 }

/-- The `caption_images` loop over a work queue. -/
def hfRun (items : List HfItem) : HfCapState :=
  items.foldl hfCapStep ⟨[], 0, false, []⟩

/-- The work queue after the resume filter: the code drops every row whose
`image_filename` appears in the pre-existing output CSV
(`df[~df["image_filename"].isin(existing_captions)]`, where
`existing_captions` is the set of all non-null filenames of that CSV). -/
def workQueue (existing : List HfRecord) (df : List HfItem) : List HfItem :=
  df.filter (fun it =>
    !((existing.map (fun r => r.image_filename)).contains it.image_filename))

/-- The work queue as the specification words it: exclude only filenames
already present with a non-empty caption.  Stated from the spec for
comparison with `workQueue` from the code. -/
def specWorkQueue (existing : List HfRecord) (df : List HfItem) : List HfItem :=
  df.filter (fun it =>
    !(((existing.filter (fun r => r.caption.isSome)).map
        (fun r => r.image_filename)).contains it.image_filename))

/-- The prior rows the script keeps: `df_existing.dropna(subset=["caption"])`. -/
def keptExisting (existing : List HfRecord) : List HfRecord :=
  existing.filter (fun r => r.caption.isSome)

/-- The on-disk output CSV after one run of `caption_images`: untouched when
the filtered queue is empty (early return), otherwise the kept prior rows
followed by the newly captioned records. -/
def caption_images (existing : List HfRecord) (df : List HfItem) : List HfRecord :=
  let q := workQueue existing df
  if q.isEmpty then existing
  else keptExisting existing ++ (hfRun q).records

/-- The filenames submitted to the captioning API during one run. -/
def caption_requests (existing : List HfRecord) (df : List HfItem) : List String :=
  (hfRun (workQueue existing df)).requests

/-! ## Lexica dataset extractor (`extract_and_download` of
`hf_lexica_image_captioning.py`), the row loop over one parquet shard. -/

/-- Zero-padded decimal, the semantics of Python `f"{n:07d}"`. -/
def pad7 (n : Nat) : String :=
  let ds := Nat.toDigits 10 n
  String.mk (List.replicate (7 - ds.length) '0' ++ ds)

/-- Python `split(sep)` over a character list (`acc` holds the current field,
reversed). -/
def splitOnCharAux (sep : Char) : List Char → List Char → List (List Char)
  | [], acc => [acc.reverse]
  | c :: rest, acc =>
    if c = sep then acc.reverse :: splitOnCharAux sep rest []
    else splitOnCharAux sep rest (c :: acc)

/-- Extension extraction: `img_url.split('.')[-1].split('?')[0][:4].lower()`. -/
def imgExt (url : String) : String :=
  let last := (splitOnCharAux '.' url.toList []).getLastD url.toList
  let beforeQ := (splitOnCharAux '?' last []).headD last
  String.mk ((beforeQ.take 4).map Char.toLower)

/-- The extensions accepted by the download branches. -/
def allowedExts : List String := ["jpg", "jpeg", "png", "webp"]

/-- Where a row's image bytes come from: `missing` covers a falsy prompt or
image field and unrecognized value shapes (plain `continue`); `bytesField` is
a dict carrying raw bytes (extension forced to `png`); `urlField` is a URL
(from a dict or a plain string) whose fetch yields `some` bytes or `none`
when `requests.get` / `raise_for_status` raises. -/
inductive LSource where
  | missing
  | bytesField (bytes : List Nat)
  | urlField (url : String) (fetch : Option (List Nat))
deriving DecidableEq, Repr

/-- One parquet row, with the outcome of `Image.open(...).verify()` on the
written file. -/
structure LRow where
  prompt : String
  source : LSource
  verifyOk : Bool
deriving DecidableEq, Repr

/-- A record produced by `extract_and_download`. -/
structure LRec where
  id : String
  prompt : String
  image_filename : String
deriving DecidableEq, Repr

/-- Loop state of `extract_and_download`: records, `id_counter`,
`consecutive_fails`, and whether the loop aborted
(`max_consecutive_fails = 20`). -/
structure LState where
  records : List LRec
  idCounter : Nat
  consecutiveFails : Nat
  aborted : Bool
deriving Repr

/-- Target filename `f"{img_id}.{img_ext}"` with `img_id = f"img_{counter:07d}"`. -/
def lTarget (counter : Nat) (ext : String) : String :=
  "img_" ++ pad7 counter ++ "." ++ ext

/-- The `except` arm of the row loop: bump `consecutive_fails` and abort at
the threshold. -/
def lFail (s : LState) : LState :=
  if 20 ≤ s.consecutiveFails + 1 then
    { s with consecutiveFails := s.consecutiveFails + 1, aborted := true }
  else { s with consecutiveFails := s.consecutiveFails + 1 }

/-- The `if img_bytes:` block: empty bytes bump the failure counter with no
abort check; otherwise, a target file already on disk is skipped after only
`id_counter += 1`; a written file failing verification is removed and the row
skipped; otherwise the record is appended, the counter bumped and the
failure streak reset. -/
def lWrite (disk : String → Bool) (s : LState) (row : LRow) (ext : String)
    (bytes : List Nat) : LState :=
  if bytes.isEmpty then { s with consecutiveFails := s.consecutiveFails + 1 }
  else
    let fname := lTarget s.idCounter ext
    if disk fname then { s with idCounter := s.idCounter + 1 }
    else if row.verifyOk = false then s
    else
      { s with records := s.records ++ [⟨"img_" ++ pad7 s.idCounter, row.prompt, fname⟩],
               idCounter := s.idCounter + 1,
               consecutiveFails := 0 }

/-- One iteration of the row loop of `extract_and_download`; `disk` tells
which filenames already exist in the image folder. -/
def lStep (disk : String → Bool) (s : LState) (row : LRow) : LState :=
  if s.aborted then s
  else match row.source with
  | LSource.missing => s
  | LSource.bytesField bytes => lWrite disk s row "png" bytes
  | LSource.urlField url fetch =>
    if ¬ allowedExts.contains (imgExt url) then s
    else match fetch with
      | none => lFail s
      | some bytes => lWrite disk s row (imgExt url) bytes

/-- The row loop over one parquet shard (`id_counter` starts at 1). -/
def lRun (disk : String → Bool) (rows : List LRow) : LState :=
  rows.foldl (lStep disk) ⟨[], 1, 0, false⟩

/-- A row that reaches the on-disk existence check with nonempty bytes:
its extension and bytes. -/
def rowBytes (row : LRow) : Option (String × List Nat) :=
  match row.source with
  | LSource.missing => none
  | LSource.bytesField b => some ("png", b)
  | LSource.urlField url fetch =>
    if allowedExts.contains (imgExt url) then
      fetch.map (fun b => (imgExt url, b))
    else none

/-! ## Theorems -/

/-- C5 counterexample: a text file whose name contains no digit does not get
excluded — the run fails (the `NaN` produced by `str.extract` makes
`.astype(int)` raise), so the claim's "the run completes rather than
failing" is false at this input. -/
theorem consolidate_no_digit_crashes :
    consolidate [("a.txt", some "p")] = none := by decide

/-- C5 (amended): the run succeeds exactly when every successfully read
`.txt` file's stem contains a digit, in which case the output rows are, up to
the final sort, the input rows with the numeric id equal to the first maximal
digit run of the stem; a file without a digit makes the run fail instead of
being excluded. -/
theorem consolidate_ids_first_digit_run (files : List (String × Option String))
    (h : textData files ≠ []) :
    ((consolidate files).isSome ↔
      ∀ r ∈ textData files, (firstDigitRun r.1).isSome = true)
  ∧ (∀ out, consolidate files = some out →
      out.Perm ((textData files).map (fun r => ((firstDigitRun r.1).getD 0, r.2)))) := by
  have hne : (textData files).isEmpty = false := by
    simp [List.isEmpty_iff, h]
  by_cases hall : (textData files).all (fun r => (firstDigitRun r.1).isSome) = true
  · have hc : consolidate files = some (List.insertionSort idRowLe
        ((textData files).map (fun r => ((firstDigitRun r.1).getD 0, r.2)))) := by
      simp [consolidate, hne, hall]
    refine ⟨?_, ?_⟩
    · simp only [hc, Option.isSome_some, true_iff]
      intro r hr
      exact List.all_eq_true.mp hall r hr
    · intro out hout
      rw [hc] at hout
      injection hout with hout
      rw [← hout]
      exact List.perm_insertionSort _ _
  · have hc : consolidate files = none := by
      simp [consolidate, hne, hall]
    refine ⟨?_, ?_⟩
    · simp only [hc, Option.isSome_none, Bool.false_eq_true, false_iff]
      intro hforall
      exact hall (List.all_eq_true.mpr hforall)
    · intro out hout
      rw [hc] at hout
      exact absurd hout (by simp)

/-- Witness for `consolidate_ids_first_digit_run` at a one-file input. -/
theorem consolidate_ids_first_digit_run_witness :
    ((consolidate [("1.txt", some "a")]).isSome ↔
      ∀ r ∈ textData [("1.txt", some "a")], (firstDigitRun r.1).isSome = true)
  ∧ (∀ out, consolidate [("1.txt", some "a")] = some out →
      out.Perm ((textData [("1.txt", some "a")]).map
        (fun r => ((firstDigitRun r.1).getD 0, r.2)))) :=
  consolidate_ids_first_digit_run [("1.txt", some "a")] (by decide)

/-- Helper: a successful consolidator run returns exactly the id-sorted
extracted rows. -/
theorem consolidate_some_eq (files : List (String × Option String))
    (out : List (Nat × String)) (h : consolidate files = some out) :
    out = List.insertionSort idRowLe
      ((textData files).map (fun r => ((firstDigitRun r.1).getD 0, r.2))) := by
  by_cases h1 : (textData files).isEmpty = true
  · simp [consolidate, h1] at h
  · by_cases h2 : (textData files).all (fun r => (firstDigitRun r.1).isSome) = true
    · have hc : consolidate files = some (List.insertionSort idRowLe
        ((textData files).map (fun r => ((firstDigitRun r.1).getD 0, r.2)))) := by
        simp [consolidate, h1, h2]
      rw [hc] at h
      injection h with h
      exact h.symm
    · simp [consolidate, h1, h2] at h

/-- C6 counterexample: two input files `1.txt` and `a1.txt` both get numeric
id `1`, so ids are not unique within one run's output. -/
theorem consolidate_ids_not_unique :
    (consolidate [("1.txt", some "a"), ("a1.txt", some "b")]).map
      (fun l => l.map Prod.fst) = some [1, 1]
  ∧ ¬ ([1, 1] : List Nat).Nodup := by decide

/-- C6 (amended): the consolidator's and each per-model captioner's output
rows are sorted ascending by numeric id, and the consolidator's ids are
unique whenever the ids extracted from the input files are pairwise distinct
(nothing in the code enforces this); the concrete example `3.txt`, `10.txt`,
`2.txt` with contents "a", "b", "c" produces rows (2, "c"), (3, "a"),
(10, "b"). -/
theorem outputs_sorted_by_id :
    (∀ files out, consolidate files = some out → List.Sorted idRowLe out)
  ∧ (∀ files out, consolidate files = some out →
      ((textData files).map (fun r => (firstDigitRun r.1).getD 0)).Nodup →
      (out.map Prod.fst).Nodup)
  ∧ (∀ items out, model_final items = some out → List.Sorted mRecLe out)
  ∧ consolidate [("3.txt", some "a"), ("10.txt", some "b"), ("2.txt", some "c")]
      = some [(2, "c"), (3, "a"), (10, "b")] := by
  refine ⟨?_, ?_, ?_, by decide⟩
  · intro files out hout
    rw [consolidate_some_eq files out hout]
    exact List.sorted_insertionSort idRowLe _
  · intro files out hout hnd
    have hperm : (out.map Prod.fst).Perm
        ((textData files).map (fun r => (firstDigitRun r.1).getD 0)) := by
      rw [consolidate_some_eq files out hout]
      have := List.perm_insertionSort idRowLe
        ((textData files).map (fun r => ((firstDigitRun r.1).getD 0, r.2)))
      simpa [List.map_map] using this.map Prod.fst
    exact hperm.nodup_iff.mpr hnd
  · intro items out hout
    unfold model_final at hout
    cases hpf : process_model_folder items with
    | none => rw [hpf] at hout; simp at hout
    | some s =>
      rw [hpf] at hout
      simp only [Option.map_some'] at hout
      injection hout with hout
      rw [← hout]
      exact List.sorted_insertionSort mRecLe _

/-- Witness for `outputs_sorted_by_id` at the example input. -/
theorem outputs_sorted_by_id_witness :
    List.Sorted idRowLe [(2, "c"), (3, "a"), (10, "b")] :=
  outputs_sorted_by_id.1 [("3.txt", some "a"), ("10.txt", some "b"), ("2.txt", some "c")]
    [(2, "c"), (3, "a"), (10, "b")] (by decide)

/-- C7 counterexample: the folder has two `.png` items; the first is
captioned, the second (the final item) is skipped for a missing `.txt`, so
the loop reaches the final index with one accumulated record but the
checkpoint file is never written (`saves = []`). -/
theorem checkpoint_missed_at_skipped_final_item :
    process_model_folder [⟨"1.png", true, some "p", some "e", [some "cap"]⟩,
      ⟨"2.png", false, none, none, []⟩]
      = some ⟨[⟨1, "p", "1.png", "cap"⟩], []⟩ := by decide

/-- C7 (amended): the accumulated records are persisted at an index that is a
multiple of the save interval or the final index only when the item at that
index is itself successfully captioned; any skipped item bypasses the
checkpoint write entirely, so a crash can lose more than one interval's worth
of records. -/
theorem checkpoint_saves_only_on_captioned_items (total idx : Nat) (it : MItem)
    (s s' : MState) (h : mStep total s (idx, it) = some s') :
    (MItem.captures it →
      ((idx % 50 = 0 ∨ idx = total) → s'.saves = s.saves ++ [s'.records])
      ∧ (¬ (idx % 50 = 0 ∨ idx = total) → s'.saves = s.saves ∧ s'.records ≠ s.records))
  ∧ (¬ MItem.captures it → s' = s) := by
  by_cases hc : MItem.captures it
  · obtain ⟨h1, h2, h3, h4⟩ := hc
    obtain ⟨prompt, hp⟩ := Option.isSome_iff_exists.mp h2
    obtain ⟨b64, he⟩ := Option.isSome_iff_exists.mp h3
    simp only [mStep, h1, hp, he, Bool.true_eq_false, if_false, if_neg h4] at h
    cases hpi : pyInt (removePng it.fname) with
    | none => rw [hpi] at h; exact absurd h (by simp)
    | some n =>
      rw [hpi] at h
      injection h with h
      refine ⟨fun _ => ⟨fun hsave => ?_, fun hsave => ?_⟩,
        fun hc' => absurd ⟨h1, h2, h3, h4⟩ hc'⟩
      · rw [← h]; simp [hsave]
      · rw [← h]; simp [hsave]
  · refine ⟨fun hc' => absurd hc' hc, fun _ => ?_⟩
    by_cases h1 : it.txtExists = true
    · cases hp : it.promptRead with
      | none => simp only [mStep, h1, hp, Bool.true_eq_false, if_false] at h
                injection h with h; exact h.symm
      | some prompt =>
        cases he : it.encoded with
        | none => simp only [mStep, h1, hp, he, Bool.true_eq_false, if_false] at h
                  injection h with h; exact h.symm
        | some b64 =>
          have h4 : (get_caption_from_api it.apiOutcomes).1 = "" := by
            by_contra h4
            exact hc ⟨h1, by simp [hp], by simp [he], h4⟩
          simp only [mStep, h1, hp, he, h4, Bool.true_eq_false, if_false, if_true,
            if_pos rfl] at h
          injection h with h; exact h.symm
    · have h1' : it.txtExists = false := by
        cases hb : it.txtExists
        · rfl
        · exact absurd hb h1
      simp only [mStep, h1', if_true] at h
      injection h with h; exact h.symm

/-- Witness for `checkpoint_saves_only_on_captioned_items`: the captioned
final item of a one-item folder triggers the checkpoint write. -/
theorem checkpoint_saves_only_on_captioned_items_witness :
    ([[(⟨1, "p", "1.png", "cap"⟩ : MRecord)]] : List (List MRecord))
      = [] ++ [[⟨1, "p", "1.png", "cap"⟩]] :=
  (((checkpoint_saves_only_on_captioned_items 1 1
      ⟨"1.png", true, some "p", some "e", [some "cap"]⟩
      ⟨[], []⟩ ⟨[⟨1, "p", "1.png", "cap"⟩], [[⟨1, "p", "1.png", "cap"⟩]]⟩
      (by decide)).1
    ⟨rfl, rfl, rfl, by decide⟩).1 (Or.inr rfl))

/-- C9: `get_caption_from_api` makes at most 3 attempts with back-off sleeps
`1.5 * attempt_number`; when every attempt fails it returns the empty caption
(no exception escapes, the function is total); a successful attempt returns
its caption at once. -/
theorem api_retry_bounded_backoff (outcomes : List (Option String)) :
    ((∀ i, i < 3 → outcomes.getD i none = none) →
      get_caption_from_api outcomes = ("", [3 / 2, 3, 9 / 2]))
  ∧ (∀ c, outcomes.getD 0 none = some c →
      get_caption_from_api outcomes = (c, [])) := by
  constructor
  · intro h
    have h0 : outcomes[0]?.getD none = none := by
      simpa [List.getD] using h 0 (by norm_num)
    have h1 : outcomes[1]?.getD none = none := by
      simpa [List.getD] using h 1 (by norm_num)
    have h2 : outcomes[2]?.getD none = none := by
      simpa [List.getD] using h 2 (by norm_num)
    simp [get_caption_from_api, get_caption_go, h0, h1, h2]
    norm_num
  · intro c hc
    have hc' : outcomes[0]?.getD none = some c := by simpa [List.getD] using hc
    simp [get_caption_from_api, get_caption_go, hc']

/-- Witness for `api_retry_bounded_backoff`: three failing attempts. -/
theorem api_retry_bounded_backoff_witness :
    get_caption_from_api [none, none, none] = ("", [3 / 2, 3, 9 / 2]) :=
  (api_retry_bounded_backoff [none, none, none]).1 (by decide)

/-- Helper: the three shapes one `generate_captions` iteration can take with
respect to records and bad files — no change, a failed record plus a bad-file
entry, or a captioned record. -/
theorem civStep_cases (s : CivState) (it : CivItem) :
    ((civStep s it).records = s.records ∧ (civStep s it).badFiles = s.badFiles)
  ∨ ((civStep s it).records
        = s.records ++ [⟨it.id, it.prompt, it.image_filename, none⟩]
      ∧ (civStep s it).badFiles = it.image_filename :: s.badFiles)
  ∨ (∃ c, it.api = ApiResult.success c ∧ it.decoded.isSome = true ∧
      (civStep s it).records
        = s.records ++ [⟨it.id, it.prompt, it.image_filename, some c⟩]
      ∧ (civStep s it).badFiles = s.badFiles) := by
  by_cases hs : s.aborted = true
  · left; simp [civStep, hs]
  · cases hd : it.decoded with
    | none =>
      right; left
      by_cases h10 : 10 ≤ s.failCount + 1 <;>
        simp [civStep, hs, hd, encode_image, h10]
    | some x =>
      cases ha : it.api with
      | success c =>
        right; right
        exact ⟨c, rfl, by simp [hd], by simp [civStep, hs, hd, encode_image, ha]⟩
      | rateLimit => left; simp [civStep, hs, hd, encode_image, ha]
      | otherError =>
        right; left
        by_cases h10 : 10 ≤ s.failCount + 1 <;>
          simp [civStep, hs, hd, encode_image, ha, h10]

/-- Helper: along the `generate_captions` loop, every accumulated record with
an absent caption has its filename in the bad-files set. -/
theorem civRun_none_caption_bad (items : List CivItem) (s : CivState)
    (hinv : ∀ r ∈ s.records, r.caption = none → r.image_filename ∈ s.badFiles) :
    ∀ r ∈ (items.foldl civStep s).records, r.caption = none →
      r.image_filename ∈ (items.foldl civStep s).badFiles := by
  induction items generalizing s with
  | nil => simpa using hinv
  | cons it rest ih =>
    simp only [List.foldl_cons]
    apply ih
    intro r hr hcap
    rcases civStep_cases s it with ⟨h1, h2⟩ | ⟨h1, h2⟩ | ⟨c, _, _, h1, h2⟩
    · rw [h1] at hr; rw [h2]; exact hinv r hr hcap
    · rw [h1] at hr; rw [h2]
      rcases List.mem_append.mp hr with hold | hnew
      · exact List.mem_cons_of_mem _ (hinv r hold hcap)
      · simp only [List.mem_singleton] at hnew
        rw [hnew]
        exact List.mem_cons_self _ _
    · rw [h1] at hr; rw [h2]
      rcases List.mem_append.mp hr with hold | hnew
      · exact hinv r hold hcap
      · simp only [List.mem_singleton] at hnew
        rw [hnew] at hcap
        simp at hcap

/-- Helper: every record of the `generate_captions` loop stems from some input
item carrying its filename, and only an item with a decodable image can yield
a present caption. -/
theorem civRun_record_source (items : List CivItem) (s : CivState) :
    ∀ r ∈ (items.foldl civStep s).records, r ∈ s.records ∨
      ∃ it ∈ items, r.image_filename = it.image_filename ∧
        (r.caption.isSome = true → it.decoded.isSome = true) := by
  induction items generalizing s with
  | nil => intro r hr; exact Or.inl hr
  | cons it rest ih =>
    intro r hr
    simp only [List.foldl_cons] at hr
    rcases ih (civStep s it) r hr with hin | ⟨it', hit', hfn, himp⟩
    · rcases civStep_cases s it with ⟨h1, _⟩ | ⟨h1, _⟩ | ⟨c, _, hd, h1, _⟩
      · rw [h1] at hin; exact Or.inl hin
      · rw [h1] at hin
        rcases List.mem_append.mp hin with hold | hnew
        · exact Or.inl hold
        · simp only [List.mem_singleton] at hnew
          refine Or.inr ⟨it, List.mem_cons_self _ _, ?_, ?_⟩
          · rw [hnew]
          · rw [hnew]; simp
      · rw [h1] at hin
        rcases List.mem_append.mp hin with hold | hnew
        · exact Or.inl hold
        · simp only [List.mem_singleton] at hnew
          exact Or.inr ⟨it, List.mem_cons_self _ _, by rw [hnew], fun _ => hd⟩
    · exact Or.inr ⟨it', List.mem_cons_of_mem _ hit', hfn, himp⟩

/-- C1 counterexample: in the civitai driver the failure counter is not reset
by a successfully captioned item — after the run fail, success, fail it
stands at 2, while the count of immediately preceding consecutive failures
(reset on success, as the claim words it) is 1. -/
theorem civ_fail_count_not_consecutive :
    (civRun [⟨"1", "p", "a.jpg", none, ApiResult.otherError⟩,
      ⟨"2", "p", "b.jpg", some "x", ApiResult.success "cap"⟩,
      ⟨"3", "p", "c.jpg", none, ApiResult.otherError⟩]).failCount = 2
  ∧ specConsecutiveFailStreak [true, false, true] = 1 := by decide

/-- C1 (amended): in the civitai driver the failure counter is cumulative —
a successfully captioned item leaves it unchanged, never resets it — and the
batch aborts exactly when a failure brings it to the threshold 10; in the
hf_lexica caption driver the counter is reset to zero by any success and the
batch aborts exactly when an API-call failure brings it to 10, while an
encoding failure increments the counter without ever triggering the abort
check. -/
theorem failure_counters_characterized :
    (∀ (s : CivState) (it : CivItem), s.aborted = false → CivItem.succeeds it →
      (civStep s it).failCount = s.failCount)
  ∧ (∀ (s : CivState) (it : CivItem), s.aborted = false → CivItem.fails it →
      (civStep s it).failCount = s.failCount + 1
      ∧ ((civStep s it).aborted = true ↔ 10 ≤ s.failCount + 1))
  ∧ (∀ (t : HfCapState) (jt : HfItem) (c : String), t.aborted = false →
      jt.fileExists = true → jt.decoded.isSome = true →
      jt.api = ApiResult.success c → (hfCapStep t jt).failCount = 0)
  ∧ (∀ (t : HfCapState) (jt : HfItem), t.aborted = false →
      jt.fileExists = true → jt.decoded.isSome = true →
      (jt.api = ApiResult.rateLimit ∨ jt.api = ApiResult.otherError) →
      (hfCapStep t jt).failCount = t.failCount + 1
      ∧ ((hfCapStep t jt).aborted = true ↔ 10 ≤ t.failCount + 1))
  ∧ (∀ (t : HfCapState) (jt : HfItem), t.aborted = false →
      jt.fileExists = true → jt.decoded = none →
      (hfCapStep t jt).failCount = t.failCount + 1
      ∧ (hfCapStep t jt).aborted = false) := by
  refine ⟨?_, ?_, ?_, ?_, ?_⟩
  · intro s it hs hsucc
    obtain ⟨hd, c, hapi⟩ := hsucc
    obtain ⟨x, hx⟩ := Option.isSome_iff_exists.mp hd
    simp [civStep, hs, hx, hapi, encode_image]
  · intro s it hs hfail
    rcases hfail with hd | ⟨hd, hapi⟩
    · by_cases h10 : 10 ≤ s.failCount + 1 <;>
        simp [civStep, hs, hd, encode_image, h10]
    · obtain ⟨x, hx⟩ := Option.isSome_iff_exists.mp hd
      by_cases h10 : 10 ≤ s.failCount + 1 <;>
        simp [civStep, hs, hx, hapi, encode_image, h10]
  · intro t jt c ht hf hd hapi
    obtain ⟨x, hx⟩ := Option.isSome_iff_exists.mp hd
    simp [hfCapStep, ht, hf, hx, hapi, encode_image]
  · intro t jt ht hf hd hapi
    obtain ⟨x, hx⟩ := Option.isSome_iff_exists.mp hd
    rcases hapi with hapi | hapi <;>
      (by_cases h10 : 10 ≤ t.failCount + 1 <;>
        simp [hfCapStep, ht, hf, hx, hapi, encode_image, h10])
  · intro t jt ht hf hd
    simp [hfCapStep, ht, hf, hd, encode_image]

/-- Witness for `failure_counters_characterized`: a success leaves the
civitai counter at its prior value. -/
theorem failure_counters_characterized_witness :
    (civStep ⟨[], 3, [], false, []⟩
      ⟨"2", "p", "b.jpg", some "x", ApiResult.success "cap"⟩).failCount = 3 :=
  failure_counters_characterized.1 ⟨[], 3, [], false, []⟩
    ⟨"2", "p", "b.jpg", some "x", ApiResult.success "cap"⟩ rfl ⟨rfl, "cap", rfl⟩

/-- C4: an image that cannot be decoded never makes the batch raise —
`encode_image` yields the explicit no-result signal on it, the item's caption
stays absent in the accumulated records, and no row with its filename reaches
the final captioned CSV. -/
theorem undecodable_image_excluded (items : List CivItem) (it : CivItem)
    (h1 : it ∈ items) (h2 : it.decoded = none)
    (h3 : (items.map CivItem.image_filename).Nodup) :
    encode_image it.decoded = none
  ∧ (∀ r ∈ (civRun items).records, r.image_filename = it.image_filename →
      r.caption = none)
  ∧ (∀ r ∈ generate_captions items, r.image_filename ≠ it.image_filename) := by
  have hmid : ∀ r ∈ (civRun items).records,
      r.image_filename = it.image_filename → r.caption = none := by
    intro r hr hfn
    rcases civRun_record_source items _ r hr with hin | ⟨it', hit', hfn', himp⟩
    · simp [CivState.records] at hin
    · have heq : it' = it :=
        List.inj_on_of_nodup_map h3 hit' h1 (by rw [← hfn', hfn])
      cases hcap : r.caption with
      | none => rfl
      | some c =>
        have hd := himp (by simp [hcap])
        rw [heq, h2] at hd
        simp at hd
  refine ⟨by simp [h2, encode_image], hmid, ?_⟩
  intro r hr hfn
  unfold generate_captions at hr
  rw [List.mem_filter] at hr
  obtain ⟨hrmem, hnotbad⟩ := hr
  have hcap := hmid r hrmem hfn
  have hbad := civRun_none_caption_bad items _ (by simp) r hrmem hcap
  simp at hnotbad
  exact hnotbad hbad

/-- Witness for `undecodable_image_excluded` at a one-item batch whose image
does not decode. -/
theorem undecodable_image_excluded_witness :
    encode_image (none : Option String) = none
  ∧ (∀ r ∈ (civRun [⟨"1", "p", "a.jpg", none, ApiResult.otherError⟩]).records,
      r.image_filename = "a.jpg" → r.caption = none)
  ∧ (∀ r ∈ generate_captions [⟨"1", "p", "a.jpg", none, ApiResult.otherError⟩],
      r.image_filename ≠ "a.jpg") :=
  undecodable_image_excluded [⟨"1", "p", "a.jpg", none, ApiResult.otherError⟩]
    ⟨"1", "p", "a.jpg", none, ApiResult.otherError⟩
    (List.mem_singleton.mpr rfl) rfl (by decide)

/-- C8 counterexample: a rate-limited civitai item is not retried — it is
skipped for good (the one-item batch produces no record for it) after a
5-second pause, which is shorter, not longer, than the 16-second pause that
follows a successful call. -/
theorem rate_limit_skips_image :
    generate_captions [⟨"4", "p", "d.jpg", some "x", ApiResult.rateLimit⟩] = []
  ∧ (civRun [⟨"4", "p", "d.jpg", some "x", ApiResult.rateLimit⟩]).sleeps = [5]
  ∧ (civRun [⟨"2", "p", "b.jpg", some "x", ApiResult.success "cap"⟩]).sleeps
      = [16] := by decide

/-- C8 (amended): on a rate-limit error the civitai captioner sleeps 5
seconds and moves on to the next image — the item is neither recorded nor
retried and does not count toward the failure budget — while the hf_lexica
variant treats a rate-limit error exactly like any other API failure. -/
theorem rate_limit_pause_and_skip (s : CivState) (it : CivItem)
    (hs : s.aborted = false) (hd : it.decoded.isSome = true)
    (ha : it.api = ApiResult.rateLimit) :
    civStep s it = { s with sleeps := s.sleeps ++ [5] }
  ∧ ∀ (t : HfCapState) (jt : HfItem),
      hfCapStep t { jt with api := ApiResult.rateLimit }
        = hfCapStep t { jt with api := ApiResult.otherError } := by
  constructor
  · obtain ⟨x, hx⟩ := Option.isSome_iff_exists.mp hd
    simp [civStep, hs, hx, ha, encode_image]
  · intro t jt
    rfl

/-- Witness for `rate_limit_pause_and_skip` at a concrete rate-limited
item. -/
theorem rate_limit_pause_and_skip_witness :
    civStep ⟨[], 0, [], false, []⟩ ⟨"4", "p", "d.jpg", some "x", ApiResult.rateLimit⟩
      = ⟨[], 0, [], false, [5]⟩ :=
  (rate_limit_pause_and_skip ⟨[], 0, [], false, []⟩
    ⟨"4", "p", "d.jpg", some "x", ApiResult.rateLimit⟩ rfl rfl rfl).1

/-- Helper: the three shapes one `caption_images` iteration can take with
respect to records and API requests. -/
theorem hfCapStep_cases (s : HfCapState) (it : HfItem) :
    ((hfCapStep s it).records = s.records
      ∧ (hfCapStep s it).requests = s.requests)
  ∨ ((hfCapStep s it).records = s.records
      ∧ (hfCapStep s it).requests = s.requests ++ [it.image_filename])
  ∨ (∃ c, (hfCapStep s it).records
        = s.records ++ [⟨it.id, it.prompt, it.image_filename, some c⟩]
      ∧ (hfCapStep s it).requests = s.requests ++ [it.image_filename]) := by
  by_cases hs : s.aborted = true
  · left; simp [hfCapStep, hs]
  · by_cases hf : it.fileExists = false
    · left; simp [hfCapStep, hs, hf]
    · cases hd : it.decoded with
      | none => left; simp [hfCapStep, hs, hf, hd, encode_image]
      | some x =>
        cases ha : it.api with
        | success c =>
          right; right
          exact ⟨c, by simp [hfCapStep, hs, hf, hd, ha, encode_image]⟩
        | rateLimit =>
          right; left
          by_cases h10 : 10 ≤ s.failCount + 1 <;>
            simp [hfCapStep, hs, hf, hd, ha, encode_image, h10]
        | otherError =>
          right; left
          by_cases h10 : 10 ≤ s.failCount + 1 <;>
            simp [hfCapStep, hs, hf, hd, ha, encode_image, h10]

/-- Helper: the `caption_images` loop only appends records and requests, the
appended filenames form sublists of the processed items' filenames, and every
appended record carries a present caption. -/
theorem hfRun_shape (items : List HfItem) (s : HfCapState) :
    ∃ t u, (items.foldl hfCapStep s).records = s.records ++ t
      ∧ (items.foldl hfCapStep s).requests = s.requests ++ u
      ∧ List.Sublist (t.map HfRecord.image_filename) (items.map HfItem.image_filename)
      ∧ List.Sublist u (items.map HfItem.image_filename)
      ∧ ∀ r ∈ t, r.caption.isSome = true := by
  induction items generalizing s with
  | nil => exact ⟨[], [], by simp, by simp, by simp, by simp, by simp⟩
  | cons it rest ih =>
    simp only [List.foldl_cons, List.map_cons]
    obtain ⟨t, u, h1, h2, h3, h4, h5⟩ := ih (hfCapStep s it)
    rcases hfCapStep_cases s it with ⟨e1, e2⟩ | ⟨e1, e2⟩ | ⟨c, e1, e2⟩
    · exact ⟨t, u, by rw [h1, e1], by rw [h2, e2], h3.cons _, h4.cons _, h5⟩
    · exact ⟨t, it.image_filename :: u, by rw [h1, e1],
        by rw [h2, e2]; simp, h3.cons _, h4.cons₂ _, h5⟩
    · refine ⟨⟨it.id, it.prompt, it.image_filename, some c⟩ :: t,
        it.image_filename :: u, ?_, ?_, ?_, ?_, ?_⟩
      · rw [h1, e1]; simp
      · rw [h2, e2]; simp
      · exact h3.cons₂ _
      · exact h4.cons₂ _
      · intro r hr
        rcases List.mem_cons.mp hr with hr | hr
        · rw [hr]; rfl
        · exact h5 r hr

/-- Helper: every item the resume filter keeps has a filename absent from the
pre-existing output CSV. -/
theorem workQueue_not_in_existing (existing : List HfRecord) (df : List HfItem)
    (it : HfItem) (h : it ∈ workQueue existing df) :
    it.image_filename ∉ existing.map HfRecord.image_filename := by
  unfold workQueue at h
  rw [List.mem_filter] at h
  obtain ⟨_, hp⟩ := h
  intro hmem
  rw [Bool.not_eq_eq_eq_not, Bool.not_true] at hp
  have hc : (existing.map (fun r => r.image_filename)).contains it.image_filename
      = true := List.elem_iff.mpr hmem
  rw [hc] at hp
  exact absurd hp (by simp)

/-- C2: re-running `caption_images` against an output CSV that already
captions image X never issues a new captioning request for X; the rewritten
output has exactly (previously captioned) + (newly captioned) rows; and the
output holds no duplicate `image_filename` (given the input frames are
themselves duplicate-free, as produced by `extract_and_download`). -/
theorem rerun_idempotent_no_duplicates (existing : List HfRecord) (df : List HfItem)
    (x : HfRecord) (hx : x ∈ existing) (hxc : x.caption.isSome = true)
    (hq : workQueue existing df ≠ [])
    (hE : (existing.map HfRecord.image_filename).Nodup)
    (hD : (df.map HfItem.image_filename).Nodup) :
    x.image_filename ∉ caption_requests existing df
  ∧ (caption_images existing df).length
      = (keptExisting existing).length
        + (hfRun (workQueue existing df)).records.length
  ∧ ((caption_images existing df).map HfRecord.image_filename).Nodup := by
  obtain ⟨t, u, h1, h2, h3, h4, h5⟩ :=
    hfRun_shape (workQueue existing df) ⟨[], 0, false, []⟩
  have hrecords : (hfRun (workQueue existing df)).records = t := by
    simpa using h1
  have hrequests : caption_requests existing df = u := by
    unfold caption_requests hfRun
    simpa using h2
  have hqe : (workQueue existing df).isEmpty = false := by
    simp [List.isEmpty_iff, hq]
  have himg : caption_images existing df = keptExisting existing ++ t := by
    unfold caption_images
    simp only [hqe, Bool.false_eq_true, if_false]
    rw [show (hfRun (workQueue existing df)).records = t from hrecords]
  have hxmem : x.image_filename ∈ existing.map HfRecord.image_filename :=
    List.mem_map_of_mem _ hx
  refine ⟨?_, ?_, ?_⟩
  · rw [hrequests]
    intro hu
    obtain ⟨it, hit, hfn⟩ := List.mem_map.mp (h4.subset hu)
    exact workQueue_not_in_existing existing df it hit (by rw [hfn]; exact hxmem)
  · rw [himg, List.length_append, hrecords]
  · rw [himg, List.map_append, List.nodup_append]
    refine ⟨?_, ?_, ?_⟩
    · exact hE.sublist ((List.filter_sublist existing).map HfRecord.image_filename)
    · exact hD.sublist (h3.trans
        ((List.filter_sublist df).map HfItem.image_filename))
    · intro a ha hb
      obtain ⟨r, hr, hra⟩ := List.mem_map.mp ha
      obtain ⟨it, hit, hfn⟩ := List.mem_map.mp (h3.subset hb)
      have hrex : r ∈ existing := List.mem_of_mem_filter hr
      refine workQueue_not_in_existing existing df it hit ?_
      rw [hfn, ← hra]
      exact List.mem_map_of_mem _ hrex

/-- Witness for `rerun_idempotent_no_duplicates` at a two-row scenario: one
already-captioned row, one fresh item. -/
theorem rerun_idempotent_no_duplicates_witness :
    ("a.png" : String) ∉ caption_requests [⟨"1", "p", "a.png", some "cap"⟩]
      [⟨"2", "q", "b.png", true, some "x", ApiResult.success "c2"⟩]
  ∧ (caption_images [⟨"1", "p", "a.png", some "cap"⟩]
      [⟨"2", "q", "b.png", true, some "x", ApiResult.success "c2"⟩]).length
      = (keptExisting [⟨"1", "p", "a.png", some "cap"⟩]).length
        + (hfRun (workQueue [⟨"1", "p", "a.png", some "cap"⟩]
            [⟨"2", "q", "b.png", true, some "x", ApiResult.success "c2"⟩])).records.length
  ∧ ((caption_images [⟨"1", "p", "a.png", some "cap"⟩]
      [⟨"2", "q", "b.png", true, some "x", ApiResult.success "c2"⟩]).map
        HfRecord.image_filename).Nodup :=
  rerun_idempotent_no_duplicates [⟨"1", "p", "a.png", some "cap"⟩]
    [⟨"2", "q", "b.png", true, some "x", ApiResult.success "c2"⟩]
    ⟨"1", "p", "a.png", some "cap"⟩ (List.mem_singleton.mpr rfl) rfl
    (by decide) (by decide) (by decide)

/-- C3 counterexample: a filename present in the prior CSV with an absent
caption is dropped from the work queue by the code, while the
specification's queue (exclude only non-empty-caption filenames) would keep
it — so such a row is not re-attempted. -/
theorem uncaptioned_prior_row_not_requeued :
    workQueue [⟨"1", "p", "a.png", none⟩]
      [⟨"1", "p", "a.png", true, some "x", ApiResult.success "c"⟩] = []
  ∧ specWorkQueue [⟨"1", "p", "a.png", none⟩]
      [⟨"1", "p", "a.png", true, some "x", ApiResult.success "c"⟩]
      = [⟨"1", "p", "a.png", true, some "x", ApiResult.success "c"⟩] := by decide

/-- C3 (amended): the captioner treats every image filename present in the
pre-existing output CSV — with or without a caption — as complete: such an
item is excluded from the work queue and never submitted to the API, and a
prior row with an absent caption is moreover dropped from the rewritten
output instead of being re-attempted. -/
theorem prior_filenames_excluded (existing : List HfRecord) (df : List HfItem)
    (it : HfItem) (r : HfRecord) (h1 : it ∈ df)
    (h2 : it.image_filename ∈ existing.map HfRecord.image_filename)
    (h3 : r ∈ existing) (h4 : r.caption = none)
    (h5 : workQueue existing df ≠ []) :
    it ∉ workQueue existing df
  ∧ it.image_filename ∉ caption_requests existing df
  ∧ r ∉ caption_images existing df := by
  obtain ⟨t, u, e1, e2, e3, e4, e5⟩ :=
    hfRun_shape (workQueue existing df) ⟨[], 0, false, []⟩
  have hrecords : (hfRun (workQueue existing df)).records = t := by
    simpa using e1
  have hrequests : caption_requests existing df = u := by
    unfold caption_requests hfRun
    simpa using e2
  have hqe : (workQueue existing df).isEmpty = false := by
    simp [List.isEmpty_iff, h5]
  have himg : caption_images existing df = keptExisting existing ++ t := by
    unfold caption_images
    simp only [hqe, Bool.false_eq_true, if_false]
    rw [show (hfRun (workQueue existing df)).records = t from hrecords]
  refine ⟨?_, ?_, ?_⟩
  · intro hmem
    exact workQueue_not_in_existing existing df it hmem h2
  · rw [hrequests]
    intro hu
    obtain ⟨it', hit', hfn⟩ := List.mem_map.mp (e4.subset hu)
    exact workQueue_not_in_existing existing df it' hit' (by rw [hfn]; exact h2)
  · rw [himg]
    intro hmem
    rcases List.mem_append.mp hmem with hk | ht
    · unfold keptExisting at hk
      have := (List.mem_filter.mp hk).2
      rw [h4] at this
      simp at this
    · have := e5 r ht
      rw [h4] at this
      simp at this

/-- Witness for `prior_filenames_excluded`: prior CSV has an uncaptioned row
`a.png` and a captioned row `b.png`; the dataset still lists `a.png`, plus a
fresh `c.png` that keeps the queue nonempty. -/
theorem prior_filenames_excluded_witness :
    (⟨"1", "p", "a.png", true, some "x", ApiResult.success "c"⟩ : HfItem)
      ∉ workQueue
        [⟨"1", "p", "a.png", none⟩, ⟨"2", "q", "b.png", some "cb"⟩]
        [⟨"1", "p", "a.png", true, some "x", ApiResult.success "c"⟩,
          ⟨"3", "s", "c.png", true, some "y", ApiResult.success "cc"⟩]
  ∧ ("a.png" : String) ∉ caption_requests
        [⟨"1", "p", "a.png", none⟩, ⟨"2", "q", "b.png", some "cb"⟩]
        [⟨"1", "p", "a.png", true, some "x", ApiResult.success "c"⟩,
          ⟨"3", "s", "c.png", true, some "y", ApiResult.success "cc"⟩]
  ∧ (⟨"1", "p", "a.png", none⟩ : HfRecord) ∉ caption_images
        [⟨"1", "p", "a.png", none⟩, ⟨"2", "q", "b.png", some "cb"⟩]
        [⟨"1", "p", "a.png", true, some "x", ApiResult.success "c"⟩,
          ⟨"3", "s", "c.png", true, some "y", ApiResult.success "cc"⟩] :=
  prior_filenames_excluded
    [⟨"1", "p", "a.png", none⟩, ⟨"2", "q", "b.png", some "cb"⟩]
    [⟨"1", "p", "a.png", true, some "x", ApiResult.success "c"⟩,
      ⟨"3", "s", "c.png", true, some "y", ApiResult.success "cc"⟩]
    ⟨"1", "p", "a.png", true, some "x", ApiResult.success "c"⟩
    ⟨"1", "p", "a.png", none⟩ (by decide) (by decide) (by decide) rfl (by decide)

/-- Helper: one `lWrite` either leaves records unchanged or appends a record
whose filename is not yet on disk. -/
theorem lWrite_records (disk : String → Bool) (s : LState) (row : LRow)
    (ext : String) (bytes : List Nat) :
    (lWrite disk s row ext bytes).records = s.records
  ∨ (disk (lTarget s.idCounter ext) = false ∧
      (lWrite disk s row ext bytes).records = s.records
        ++ [⟨"img_" ++ pad7 s.idCounter, row.prompt, lTarget s.idCounter ext⟩]) := by
  by_cases hb : bytes.isEmpty = true
  · left; simp [lWrite, hb]
  · by_cases hd : disk (lTarget s.idCounter ext) = true
    · left; simp [lWrite, hb, hd]
    · by_cases hv : row.verifyOk = false
      · left; simp [lWrite, hb, hd, hv]
      · right
        refine ⟨by simp at hd; exact hd, ?_⟩
        simp [lWrite, hb, hd, hv]

/-- Helper: one `lStep` either leaves records unchanged or appends a record
whose target filename was not on disk. -/
theorem lStep_records (disk : String → Bool) (s : LState) (row : LRow) :
    (lStep disk s row).records = s.records
  ∨ ∃ ext, disk (lTarget s.idCounter ext) = false ∧
      (lStep disk s row).records = s.records
        ++ [⟨"img_" ++ pad7 s.idCounter, row.prompt, lTarget s.idCounter ext⟩] := by
  by_cases hs : s.aborted = true
  · left; simp [lStep, hs]
  · cases hsrc : row.source with
    | missing => left; simp [lStep, hs, hsrc]
    | bytesField bytes =>
      rcases lWrite_records disk s row "png" bytes with h | ⟨hd, h⟩
      · left; simpa [lStep, hs, hsrc] using h
      · right; exact ⟨"png", hd, by simpa [lStep, hs, hsrc] using h⟩
    | urlField url fetch =>
      by_cases hallow : imgExt url ∈ allowedExts
      · cases fetch with
        | none =>
          left
          by_cases h20 : 20 ≤ s.consecutiveFails + 1 <;>
            simp [lStep, hs, hsrc, hallow, lFail, h20]
        | some bytes =>
          rcases lWrite_records disk s row (imgExt url) bytes with h | ⟨hd, h⟩
          · left; simpa [lStep, hs, hsrc, hallow] using h
          · right
            exact ⟨imgExt url, hd, by simpa [lStep, hs, hsrc, hallow] using h⟩
      · left; simp [lStep, hs, hsrc, hallow]

/-- Helper: no record accumulated by the `extract_and_download` loop carries
a filename that was already on disk when its row was processed. -/
theorem lRun_records_not_on_disk (disk : String → Bool) (rows : List LRow)
    (s : LState) (hs : ∀ r ∈ s.records, disk r.image_filename = false) :
    ∀ r ∈ (rows.foldl (lStep disk) s).records, disk r.image_filename = false := by
  induction rows generalizing s with
  | nil => simpa using hs
  | cons row rest ih =>
    simp only [List.foldl_cons]
    apply ih
    intro r hr
    rcases lStep_records disk s row with h | ⟨ext, hd, h⟩
    · rw [h] at hr; exact hs r hr
    · rw [h] at hr
      rcases List.mem_append.mp hr with hold | hnew
      · exact hs r hold
      · simp only [List.mem_singleton] at hnew
        rw [hnew]
        exact hd

/-- C10: a dataset row whose target image file already exists on disk is
skipped after only incrementing the id counter — no record is produced for
it — and consequently no record of the whole run (hence nothing handed to
the captioning stage) names a file that already existed on disk. -/
theorem existing_image_skipped (disk : String → Bool) (s : LState) (row : LRow)
    (ext : String) (bytes : List Nat) (hs : s.aborted = false)
    (hrb : rowBytes row = some (ext, bytes)) (hne : bytes ≠ [])
    (hdisk : disk (lTarget s.idCounter ext) = true) :
    lStep disk s row = { s with idCounter := s.idCounter + 1 }
  ∧ ∀ (rows : List LRow) (r : LRec), r ∈ (lRun disk rows).records →
      disk r.image_filename = false := by
  constructor
  · have hbne : bytes.isEmpty = false := by
      simp [List.isEmpty_iff, hne]
    cases hsrc : row.source with
    | missing =>
      simp only [rowBytes, hsrc] at hrb
      exact absurd hrb (by simp)
    | bytesField b =>
      simp only [rowBytes, hsrc] at hrb
      injection hrb with hpair
      injection hpair with hext hb
      subst hb
      rw [← hext] at hdisk
      simp [lStep, hs, hsrc, lWrite, hbne, hdisk]
    | urlField url fetch =>
      simp only [rowBytes, hsrc] at hrb
      by_cases hallow : imgExt url ∈ allowedExts
      · rw [if_pos (by simpa using hallow)] at hrb
        cases fetch with
        | none => exact absurd hrb (by simp)
        | some b =>
          simp only [Option.map_some'] at hrb
          injection hrb with hpair
          injection hpair with hext hb
          subst hb
          rw [← hext] at hdisk
          simp [lStep, hs, hsrc, lWrite, hbne, hdisk, hallow]
      · rw [if_neg (by simpa using hallow)] at hrb
        exact absurd hrb (by simp)
  · intro rows r hr
    exact lRun_records_not_on_disk disk rows ⟨[], 1, 0, false⟩ (by simp) r hr

/-- Witness for `existing_image_skipped`: the target of the first row is
already on disk, so the step only bumps the counter. -/
theorem existing_image_skipped_witness :
    lStep (fun n => n == "img_0000001.png") ⟨[], 1, 0, false⟩
      ⟨"p", LSource.bytesField [1], true⟩
      = ⟨[], 2, 0, false⟩ :=
  (existing_image_skipped (fun n => n == "img_0000001.png") ⟨[], 1, 0, false⟩
    ⟨"p", LSource.bytesField [1], true⟩ "png" [1] rfl rfl (by decide) (by decide)).1
